import Mathlib

/-!
Verification of the OpenFGA demo authorization gateway.

This file gives a shallow embedding of the authorization core of the
repository (src/controller.rs and src/auth.rs) and proves the spec-level
claims about it.

Modelling conventions:
* Rust `&str`/`String` operations (`split('/')`, `strip_prefix`, `trim`,
  `contains`, `sort`+`dedup`) are modelled at the character level over
  `String.data : List Char`, structurally recursive so that concrete
  instances evaluate in the kernel.  `Vec::sort` followed by
  `Vec::dedup` (removal of consecutive duplicates) is modelled as an
  insertion sort followed by `List.dedup`; on a sorted list removing
  consecutive duplicates and removing all duplicates coincide, so the
  two are extensionally the same function.
* The gRPC authority is an opaque transport, modelled as a function from
  the request structure to `Except String` of the response structure.
* `async` handlers are sequential state-free functions here; each
  handler returns `Except (status × body) (status × body)` mirroring
  Rust `Result<(StatusCode, Json), (StatusCode, Json)>`.  JSON object
  bodies that only carry string fields are modelled as association
  lists `List (String × String)`.
* The `HashMap`-based merge of `get_shared_resources` is modelled as an
  association list keyed by the record `id` with the same
  `entry`/`and_modify`/`or_insert` semantics.
-/

namespace Fga

/-! ## Character-level string primitives -/

/-- Model of Rust `str::split('/')` (and `String::splitOn` for a single
character separator) on the character list. -/
def splitCharData (sep : Char) : List Char → List (List Char)
  | [] => [[]]
  | c :: rest =>
    if c = sep then [] :: splitCharData sep rest
    else
      match splitCharData sep rest with
      | [] => [[c]]
      | h :: t => (c :: h) :: t

/-- Rust `s.split(sep).collect::<Vec<_>>()`. -/
def splitChar (sep : Char) (s : String) : List String :=
  (splitCharData sep s.data).map String.mk

/-- Rust `str::trim` on the character list (drop whitespace from both ends). -/
def trimData (l : List Char) : List Char :=
  ((l.dropWhile Char.isWhitespace).reverse.dropWhile Char.isWhitespace).reverse

/-- Substring test on character lists: some position of `s` starts with `pat`. -/
def hasSubData (pat : List Char) : List Char → Bool
  | [] => pat.isEmpty
  | c :: rest => pat.isPrefixOf (c :: rest) || hasSubData pat rest

/-- Rust `str::contains(pat)` for a string pattern. -/
def containsStr (s pat : String) : Bool :=
  hasSubData pat.data s.data

/-- Rust `str::strip_prefix`: the remainder of `s` after `p`, when `p` leads `s`. -/
def stripPre (p s : String) : Option String :=
  if p.data.isPrefixOf s.data then some (String.mk (s.data.drop p.data.length))
  else none

/-- Code-point lexicographic comparison on character lists (the order used
by Rust `Vec<String>::sort`; UTF-8 byte order agrees with code-point order). -/
def leData : List Char → List Char → Bool
  | [], _ => true
  | _ :: _, [] => false
  | a :: as, b :: bs => if a = b then leData as bs else decide (a.toNat < b.toNat)

/-- Lexicographic comparison of strings. -/
def strLe (a b : String) : Bool :=
  leData a.data b.data

/-- Ordered insertion for the insertion sort below. -/
def insertOrdered (a : String) : List String → List String
  | [] => [a]
  | b :: bs => if strLe a b then a :: b :: bs else b :: insertOrdered a bs

/-- Insertion sort by `strLe`; extensionally Rust `Vec<String>::sort()`. -/
def sortStr : List String → List String
  | [] => []
  | a :: as => insertOrdered a (sortStr as)

/-- Rust `v.sort(); v.dedup();` — sort then remove duplicates. -/
def sortDedup (l : List String) : List String :=
  (sortStr l).dedup

theorem mem_insertOrdered (s a : String) (l : List String) :
    s ∈ insertOrdered a l ↔ s = a ∨ s ∈ l := by
  induction l with
  | nil => simp [insertOrdered]
  | cons b bs ih =>
    by_cases h : strLe a b = true
    · simp [insertOrdered, h]
    · simp only [insertOrdered, h, if_neg, Bool.not_eq_true] at *
      simp [List.mem_cons, ih]
      tauto

theorem mem_sortStr (s : String) (l : List String) :
    s ∈ sortStr l ↔ s ∈ l := by
  induction l with
  | nil => simp [sortStr]
  | cons a as ih => simp [sortStr, mem_insertOrdered, ih]

theorem mem_sortDedup (s : String) (l : List String) :
    s ∈ sortDedup l ↔ s ∈ l := by
  simp [sortDedup, List.mem_dedup, mem_sortStr]

theorem nodup_sortDedup (l : List String) : (sortDedup l).Nodup :=
  List.nodup_dedup _

/-! ## Data model (src/controller.rs, src/context.rs, src/auth.rs) -/

/-- OpenFGA configuration held in the request context (`FgaConfig`). -/
structure FgaConfig where
  store_id : String
  authorization_model_id : Option String
deriving DecidableEq

/-- The `TupleKeyWithoutCondition` built by `check_permission`. -/
structure TupleKeyWithoutCondition where
  user : String
  relation : String
  object : String
deriving DecidableEq

/-- The `CheckRequestTupleKey` copied into the check request. -/
structure CheckRequestTupleKey where
  user : String
  relation : String
  object : String
deriving DecidableEq

/-- The fields of `CheckRequest` that the code sets (the remaining fields
are `..Default::default()` and never read in this program). -/
structure CheckRequest where
  store_id : String
  tuple_key : Option CheckRequestTupleKey
  authorization_model_id : String
deriving DecidableEq

/-- The field of the check response that the code reads. -/
structure CheckResponse where
  allowed : Bool
deriving DecidableEq

/-- The fields of `ListObjectsRequest` that the code sets. -/
structure ListObjectsRequest where
  store_id : String
  authorization_model_id : String
  type : String
  consistency : Nat
  relation : String
  user : String
deriving DecidableEq

/-- The field of the list-objects response that the code reads. -/
structure ListObjectsResponse where
  objects : List String
deriving DecidableEq

/-- Path parameters of the resource routes (`ResourceParams`). -/
structure ResourceParams where
  service_name : String
  service_type : String
  org_id : String
  name : String
deriving DecidableEq

/-- Query parameters of the list route (`ListQueryParams`). -/
structure ListQueryParams where
  relation : Option String
  object_type : Option String
deriving DecidableEq

/-- Body of a successful list response (`ListResponse`). -/
structure ListResponse where
  objects : List String
  total_count : Nat
  object_type : String
  relation : String
deriving DecidableEq

/-- Discovery record for a `service:` identifier (`SharedService`). -/
structure SharedService where
  id : String
  name : String
  shared_via : String
  permissions : List String
deriving DecidableEq

/-- Discovery record for a `service_type:` identifier (`SharedServiceType`). -/
structure SharedServiceType where
  id : String
  service_name : String
  service_type : String
  shared_via : String
  permissions : List String
deriving DecidableEq

/-- Discovery record for a `resource:` identifier (`SharedResource`). -/
structure SharedResource where
  id : String
  service_name : String
  service_type : String
  resource_name : String
  shared_via : String
  permissions : List String
deriving DecidableEq

/-- Body of the discovery response (`SharedResourcesResponse`). -/
structure SharedResourcesResponse where
  services : List SharedService
  service_types : List SharedServiceType
  resources : List SharedResource
deriving DecidableEq

/-- JSON object bodies whose fields are all strings. -/
def JsonObj : Type := List (String × String)

/-- Result type of an axum handler:
`Result<(StatusCode, Json), (StatusCode, Json)>`. -/
def HandlerResult (ok : Type) : Type := Except (Nat × JsonObj) (Nat × ok)

/-- The authority transport for check calls (opaque gRPC dependency). -/
def CheckTransport : Type := CheckRequest → Except String CheckResponse

/-- The authority transport for list-objects calls. -/
def ListTransport : Type := ListObjectsRequest → Except String ListObjectsResponse

/-! ## Permission Checker (`check_permission`, controller.rs:83-160) -/

/-- Error-message classification of the failure branch of `check_permission`
(controller.rs:142-158). -/
def classifyCheckErr (e : String) : String :=
  if containsStr e "transport error" || containsStr e "Connection refused" then
    "OpenFGA server is not available. Please check server status and configuration."
  else
    "OpenFGA permission check failed: " ++ e

/-- Shallow embedding of `check_permission` (controller.rs:83-160): config
validation, tuple construction with the `user:` normalization, one transport
call, verbatim `allowed`, error classification. -/
def check_permission (cfg : FgaConfig) (transport : CheckTransport)
    (user_id relation object_id : String) : Except String Bool :=
  if cfg.store_id = "" then .error "OpenFGA store ID not configured"
  else
    match cfg.authorization_model_id with
    | none => .error "OpenFGA authorization model ID not configured"
    | some authorization_model_id =>
      let tuple_key : TupleKeyWithoutCondition :=
        { user := "user:" ++ user_id, relation := relation, object := object_id }
      let check_request : CheckRequest :=
        { store_id := cfg.store_id
          tuple_key := some { user := tuple_key.user, relation := tuple_key.relation,
                              object := tuple_key.object }
          authorization_model_id := authorization_model_id }
      match transport check_request with
      | .ok response => .ok response.allowed
      | .error e => .error (classifyCheckErr e)

/-- The exact check request the spec says is submitted for a given
configuration, model id and tuple. -/
def checkRequestOf (cfg : FgaConfig) (model_id user_id relation object_id : String) :
    CheckRequest :=
  { store_id := cfg.store_id
    tuple_key := some { user := "user:" ++ user_id, relation := relation,
                        object := object_id }
    authorization_model_id := model_id }

/-! ## Resource Operation Orchestrator (CRUD handlers, controller.rs:163-374, 592-659) -/

/-- The organisation key built by `create_resource` (controller.rs:182). -/
def orgKey (params : ResourceParams) : String :=
  "organisation:" ++ params.org_id

/-- The resource key built by `update_resource`, `get_resource` and
`delete_resource` (controller.rs:251-254, 320-323, 606-609):
`format!("{}/{}/{}/{}", service_name, service_type, org_id, name)` —
note: no `resource:` type marker is prepended. -/
def resourceKey (params : ResourceParams) : String :=
  params.service_name ++ "/" ++ params.service_type ++ "/" ++ params.org_id
    ++ "/" ++ params.name

/-- Shallow embedding of `create_resource` (controller.rs:163-234). -/
def create_resource (cfg : FgaConfig) (transport : CheckTransport)
    (params : ResourceParams) (user_id : String) : HandlerResult JsonObj :=
  match check_permission cfg transport user_id "admin" (orgKey params) with
  | .ok allowed =>
    if !allowed then
      .error (403, [("error", "Permission denied"),
                    ("message", "You do not have permission to create this resource")])
    else
      .ok (201, [("message", "Resource created successfully"),
                 ("organisation", params.org_id)])
  | .error e =>
    .error (500, [("error", "Failed to check permission"), ("message", e)])

/-- Shallow embedding of `update_resource` (controller.rs:237-304). -/
def update_resource (cfg : FgaConfig) (transport : CheckTransport)
    (params : ResourceParams) (user_id : String) : HandlerResult JsonObj :=
  match check_permission cfg transport user_id "editor" (resourceKey params) with
  | .ok allowed =>
    if !allowed then
      .error (403, [("error", "Permission denied"),
                    ("message", "You do not have permission to update this resource")])
    else
      .ok (200, [("message", "Resource updated successfully"),
                 ("resource_id", resourceKey params)])
  | .error e =>
    .error (500, [("error", "Failed to check permission"), ("message", e)])

/-- Shallow embedding of `get_resource` (controller.rs:307-374). -/
def get_resource (cfg : FgaConfig) (transport : CheckTransport)
    (params : ResourceParams) (user_id : String) : HandlerResult JsonObj :=
  match check_permission cfg transport user_id "viewer" (resourceKey params) with
  | .ok allowed =>
    if !allowed then
      .error (403, [("error", "Permission denied"),
                    ("message", "You do not have permission to view this resource")])
    else
      .ok (200, [("resource_id", resourceKey params),
                 ("name", params.name),
                 ("service_name", params.service_name),
                 ("service_type", params.service_type),
                 ("org_id", params.org_id)])
  | .error e =>
    .error (500, [("error", "Failed to check permission"), ("message", e)])

/-- Shallow embedding of `delete_resource` (controller.rs:593-659). -/
def delete_resource (cfg : FgaConfig) (transport : CheckTransport)
    (params : ResourceParams) (user_id : String) : HandlerResult JsonObj :=
  match check_permission cfg transport user_id "owner" (resourceKey params) with
  | .ok allowed =>
    if !allowed then
      .error (403, [("error", "Permission denied"),
                    ("message", "You do not have permission to delete this resource")])
    else
      .ok (200, [("message", "Resource deleted successfully"),
                 ("resource_id", resourceKey params)])
  | .error e =>
    .error (500, [("error", "Failed to check permission"), ("message", e)])

/-! ## Single-query discovery (`list_objects`, controller.rs:377-440) -/

/-- The list-objects request built by `list_objects` (controller.rs:394-407)
and by each fan-out iteration of `get_shared_resources`
(controller.rs:461-474): the store id is copied unvalidated, the model id
defaults to the empty string (`unwrap_or_default`), consistency is the
constant 8, and the user id is sent as-is. -/
def mkListRequest (cfg : FgaConfig) (object_type relation user_id : String) :
    ListObjectsRequest :=
  { store_id := cfg.store_id
    authorization_model_id := cfg.authorization_model_id.getD ""
    type := object_type
    consistency := 8
    relation := relation
    user := user_id }

/-- Shallow embedding of `list_objects` (controller.rs:377-440). -/
def list_objects (cfg : FgaConfig) (transport : ListTransport)
    (params : ListQueryParams) (user_id : String) : HandlerResult ListResponse :=
  let relation := params.relation.getD "viewer"
  let object_type := params.object_type.getD "resource"
  match transport (mkListRequest cfg object_type relation user_id) with
  | .ok response =>
    .ok (200, { objects := response.objects
                total_count := response.objects.length
                object_type := object_type
                relation := relation })
  | .error e =>
    .error (500, [("error", "Failed to list objects"), ("message", e)])

/-! ## Object Discovery Aggregator (`get_shared_resources`, controller.rs:443-590) -/

/-- The fixed object-type fan-out list (controller.rs:456). -/
def object_types : List String := ["service", "service_type", "resource"]

/-- The fixed relation fan-out list (controller.rs:457). -/
def relations : List String := ["viewer", "editor", "admin"]

/-- One fan-out query (controller.rs:461-539): the objects of a successful
response, or nothing when the query fails (the failure is only logged). -/
def listFor (cfg : FgaConfig) (transport : ListTransport)
    (user_id object_type relation : String) : List String :=
  match transport (mkListRequest cfg object_type relation user_id) with
  | .ok response => response.objects
  | .error _ => []

/-- Parsing of a returned `service:` identifier (controller.rs:482-493). -/
def parseService (relation object_id : String) : Option SharedService :=
  match stripPre "service:" object_id with
  | some service_name =>
    some { id := object_id, name := service_name,
           shared_via := "parent_organization", permissions := [relation] }
  | none => none

/-- Parsing of a returned `service_type:` identifier (controller.rs:494-509):
kept only when the path has exactly two `/`-separated segments. -/
def parseServiceType (relation object_id : String) : Option SharedServiceType :=
  match stripPre "service_type:" object_id with
  | some service_type_path =>
    match splitChar '/' service_type_path with
    | [p0, p1] =>
      some { id := object_id, service_name := p0, service_type := p1,
             shared_via := "parent_organization", permissions := [relation] }
    | _ => none
  | none => none

/-- Parsing of a returned `resource:` identifier (controller.rs:510-526):
kept only when the path has exactly three `/`-separated segments. -/
def parseResource (relation object_id : String) : Option SharedResource :=
  match stripPre "resource:" object_id with
  | some resource_path =>
    match splitChar '/' resource_path with
    | [p0, p1, p2] =>
      some { id := object_id, service_name := p0, service_type := p1,
             resource_name := p2, shared_via := "parent_organization",
             permissions := [relation] }
    | _ => none
  | none => none

section Merge

variable {α : Type} (getId : α → String) (getPerms : α → List String)
  (setPerms : α → List String → α)

/-- One `entry(..).and_modify(..).or_insert(..)` step of the deduplicating
merge (controller.rs:548-581), on an association list keyed by `getId`:
an existing record with the same id has the new permissions appended,
sorted and deduplicated; otherwise the record is inserted as-is. -/
def mergeStep (m : List α) (r : α) : List α :=
  if m.any (fun e => getId e == getId r) then
    m.map (fun e =>
      if getId e == getId r then setPerms e (sortDedup (getPerms e ++ getPerms r))
      else e)
  else m ++ [r]

/-- The full merge loop over a list of parsed records. -/
def mergeAll (l : List α) : List α :=
  List.foldl (mergeStep getId getPerms setPerms) [] l

/-- Permissions recorded for identifier `i` in a merged collection. -/
def permsOf (m : List α) (i : String) : List String :=
  match m.find? (fun e => getId e == i) with
  | some e => getPerms e
  | none => []

end Merge

/-- The merge of the `SharedService` collection (controller.rs:548-557). -/
def mergeServices (l : List SharedService) : List SharedService :=
  mergeAll (fun e => e.id) (fun e => e.permissions)
    (fun e p => { e with permissions := p }) l

/-- The merge of the `SharedServiceType` collection (controller.rs:559-570). -/
def mergeServiceTypes (l : List SharedServiceType) : List SharedServiceType :=
  mergeAll (fun e => e.id) (fun e => e.permissions)
    (fun e p => { e with permissions := p }) l

/-- The merge of the `SharedResource` collection (controller.rs:572-581). -/
def mergeResources (l : List SharedResource) : List SharedResource :=
  mergeAll (fun e => e.id) (fun e => e.permissions)
    (fun e p => { e with permissions := p }) l

/-- Shallow embedding of `get_shared_resources` (controller.rs:443-590):
9-way fan-out over `object_types × relations` (failed queries contribute
nothing), per-type parsing, then the deduplicating merge.  The handler
always answers 200 with the merged collections. -/
def get_shared_resources (cfg : FgaConfig) (transport : ListTransport)
    (user_id : String) : HandlerResult SharedResourcesResponse :=
  let shared_services :=
    (relations.map (fun relation =>
      (listFor cfg transport user_id "service" relation).filterMap
        (parseService relation))).flatten
  let shared_service_types :=
    (relations.map (fun relation =>
      (listFor cfg transport user_id "service_type" relation).filterMap
        (parseServiceType relation))).flatten
  let shared_resources :=
    (relations.map (fun relation =>
      (listFor cfg transport user_id "resource" relation).filterMap
        (parseResource relation))).flatten
  .ok (200, { services := mergeServices shared_services
              service_types := mergeServiceTypes shared_service_types
              resources := mergeResources shared_resources })

/-! ## Authentication middleware (`auth_middleware`, src/auth.rs:20-70) -/

/-- The authenticated principal (`AuthUser`). -/
structure AuthUser where
  user_id : String
deriving DecidableEq

/-- The `X-User-Id` header as seen by the middleware: absent, present but
not valid UTF-8, or present with a decoded string value. -/
def HeaderValue : Type := Option (Except Unit String)

/-- Shallow embedding of `auth_middleware` (auth.rs:20-70): missing header
is 401; non-UTF-8 or whitespace-only header is 400; otherwise the decoded
value becomes the authenticated user id. -/
def auth_middleware (header : HeaderValue) : Except (Nat × JsonObj) AuthUser :=
  match header with
  | some (.ok user_id) =>
    if (trimData user_id.data).isEmpty then
      .error (400, [("error", "Invalid user ID"),
                    ("message", "X-User-Id header cannot be empty")])
    else
      .ok { user_id := user_id }
  | some (.error _) =>
    .error (400, [("error", "Invalid header format"),
                  ("message", "X-User-Id header must be valid UTF-8")])
  | none =>
    .error (401, [("error", "Missing authentication"),
                  ("message", "X-User-Id header is required")])

/-! ## Properties of the deduplicating merge -/

section MergeLemmas

variable {α : Type} {β : Type} (getId : α → String) (getPerms : α → List String)
  (setPerms : α → List String → α)

theorem find?_mergeStep
    (hid : ∀ a p, getId (setPerms a p) = getId a)
    (m : List α) (r : α) (i : String) :
    (mergeStep getId getPerms setPerms m r).find? (fun e => getId e == i) =
      match m.find? (fun e => getId e == i) with
      | some e =>
        some (if getId e == getId r then
                setPerms e (sortDedup (getPerms e ++ getPerms r))
              else e)
      | none =>
        if getId r = i ∧ ¬ (m.any (fun e => getId e == getId r) = true) then some r
        else none := by
  unfold mergeStep
  by_cases hany : m.any (fun e => getId e == getId r) = true
  · rw [if_pos hany, List.find?_map]
    have hcomp : ((fun e => getId e == i) ∘
        (fun e => if getId e == getId r then
            setPerms e (sortDedup (getPerms e ++ getPerms r)) else e)) =
        (fun e => getId e == i) := by
      funext e
      simp only [Function.comp_apply]
      by_cases h : (getId e == getId r) = true
      · rw [if_pos h, hid]
      · rw [if_neg h]
    rw [hcomp]
    cases hfind : m.find? (fun e => getId e == i) with
    | none => simp [hany]
    | some e => simp
  · rw [if_neg hany, List.find?_append]
    cases hfind : m.find? (fun e => getId e == i) with
    | none =>
      simp only [Option.none_or]
      by_cases hri : getId r = i
      · subst hri
        have hb : (getId r == getId r) = true := beq_iff_eq.mpr rfl
        simp [List.find?_cons, hb, hany]
      · have hb : (getId r == i) = false := by simp [hri]
        simp [List.find?_cons, hb, hri]
    | some e =>
      have hne : getId e ≠ getId r := fun h =>
        hany (List.any_eq_true.mpr
          ⟨e, List.mem_of_find?_eq_some hfind, beq_iff_eq.mpr h⟩)
      simp [hne]

theorem someOr (a : α) (x : Option α) : (some a).or x = some a := rfl

theorem mem_permsOf_mergeStep
    (hid : ∀ a p, getId (setPerms a p) = getId a)
    (hperm : ∀ a p, getPerms (setPerms a p) = p)
    (m : List α) (r : α) (i s : String) :
    s ∈ permsOf getId getPerms (mergeStep getId getPerms setPerms m r) i ↔
      s ∈ permsOf getId getPerms m i ∨ (getId r = i ∧ s ∈ getPerms r) := by
  unfold permsOf
  rw [find?_mergeStep getId getPerms setPerms hid]
  cases hfind : m.find? (fun e => getId e == i) with
  | some e =>
    dsimp only
    have hei : getId e = i :=
      beq_iff_eq.mp (@List.find?_some α (fun e => getId e == i) e m hfind)
    by_cases her : (getId e == getId r) = true
    · have hri : getId r = i := (beq_iff_eq.mp her) ▸ hei
      rw [if_pos her, hperm, mem_sortDedup, List.mem_append]
      simp [hri]
    · have hri : getId r ≠ i := fun h => her (beq_iff_eq.mpr (hei.trans h.symm))
      rw [if_neg her]
      simp [hri]
  | none =>
    dsimp only
    by_cases hcond : getId r = i ∧ ¬ (m.any (fun e => getId e == getId r) = true)
    · rw [if_pos hcond]
      simp [hcond.1]
    · rw [if_neg hcond]
      simp only [List.not_mem_nil, false_or, false_iff]
      rintro ⟨hri, hs⟩
      apply hcond
      refine ⟨hri, fun hany => ?_⟩
      obtain ⟨x, hx, hxr⟩ := List.any_eq_true.mp hany
      exact List.find?_eq_none.mp hfind x hx
        (beq_iff_eq.mpr ((beq_iff_eq.mp hxr).trans hri))

theorem mem_permsOf_foldl
    (hid : ∀ a p, getId (setPerms a p) = getId a)
    (hperm : ∀ a p, getPerms (setPerms a p) = p)
    (l : List α) : ∀ (m : List α) (i s : String),
    s ∈ permsOf getId getPerms (List.foldl (mergeStep getId getPerms setPerms) m l) i ↔
      s ∈ permsOf getId getPerms m i ∨ ∃ r, r ∈ l ∧ getId r = i ∧ s ∈ getPerms r := by
  induction l with
  | nil => intro m i s; simp
  | cons x xs ih =>
    intro m i s
    simp only [List.foldl_cons]
    rw [ih, mem_permsOf_mergeStep getId getPerms setPerms hid hperm]
    constructor
    · rintro ((h | ⟨hxi, hs⟩) | ⟨r, hr, hri, hs⟩)
      · exact .inl h
      · exact .inr ⟨x, List.mem_cons_self x xs, hxi, hs⟩
      · exact .inr ⟨r, List.mem_cons_of_mem x hr, hri, hs⟩
    · rintro (h | ⟨r, hr, hri, hs⟩)
      · exact .inl (.inl h)
      · rcases List.mem_cons.mp hr with heq | hmem
        · exact .inl (.inr ⟨heq ▸ hri, heq ▸ hs⟩)
        · exact .inr ⟨r, hmem, hri, hs⟩

theorem mem_permsOf_mergeAll
    (hid : ∀ a p, getId (setPerms a p) = getId a)
    (hperm : ∀ a p, getPerms (setPerms a p) = p)
    (l : List α) (i s : String) :
    s ∈ permsOf getId getPerms (mergeAll getId getPerms setPerms l) i ↔
      ∃ r, r ∈ l ∧ getId r = i ∧ s ∈ getPerms r := by
  unfold mergeAll
  rw [mem_permsOf_foldl getId getPerms setPerms hid hperm]
  simp [permsOf]

theorem nodup_perms_mergeStep
    (hperm : ∀ a p, getPerms (setPerms a p) = p)
    (m : List α) (r : α) (hm : ∀ e ∈ m, (getPerms e).Nodup)
    (hr : (getPerms r).Nodup) :
    ∀ e ∈ mergeStep getId getPerms setPerms m r, (getPerms e).Nodup := by
  intro e he
  unfold mergeStep at he
  by_cases hany : (m.any fun e => getId e == getId r) = true
  · rw [if_pos hany] at he
    obtain ⟨e0, he0, hfe⟩ := List.mem_map.mp he
    by_cases h : (getId e0 == getId r) = true
    · rw [if_pos h] at hfe
      rw [← hfe, hperm]
      exact nodup_sortDedup _
    · rw [if_neg h] at hfe
      exact hfe ▸ hm e0 he0
  · rw [if_neg hany] at he
    rcases List.mem_append.mp he with h | h
    · exact hm e h
    · exact (List.mem_singleton.mp h) ▸ hr

theorem nodup_perms_foldl
    (hperm : ∀ a p, getPerms (setPerms a p) = p)
    (l : List α) : ∀ m : List α, (∀ e ∈ m, (getPerms e).Nodup) →
    (∀ r ∈ l, (getPerms r).Nodup) →
    ∀ e ∈ List.foldl (mergeStep getId getPerms setPerms) m l, (getPerms e).Nodup := by
  induction l with
  | nil => intro m hm _ e he; exact hm e he
  | cons x xs ih =>
    intro m hm hl e he
    simp only [List.foldl_cons] at he
    refine ih (mergeStep getId getPerms setPerms m x) ?_ ?_ e he
    · exact nodup_perms_mergeStep getId getPerms setPerms hperm m x hm
        (hl x (List.mem_cons_self x xs))
    · intro r hr
      exact hl r (List.mem_cons_of_mem x hr)

theorem nodup_perms_mergeAll
    (hperm : ∀ a p, getPerms (setPerms a p) = p)
    (l : List α) (hl : ∀ r ∈ l, (getPerms r).Nodup) :
    ∀ e ∈ mergeAll getId getPerms setPerms l, (getPerms e).Nodup := by
  intro e he
  exact nodup_perms_foldl getId getPerms setPerms hperm l [] (by simp) hl e he

theorem ids_mergeStep
    (hid : ∀ a p, getId (setPerms a p) = getId a)
    (m : List α) (r : α) :
    (mergeStep getId getPerms setPerms m r).map getId =
      if (m.any fun e => getId e == getId r) = true then m.map getId
      else m.map getId ++ [getId r] := by
  unfold mergeStep
  by_cases hany : (m.any fun e => getId e == getId r) = true
  · rw [if_pos hany, if_pos hany, List.map_map]
    congr 1
    funext e
    simp only [Function.comp_apply]
    by_cases h : (getId e == getId r) = true
    · rw [if_pos h, hid]
    · rw [if_neg h]
  · rw [if_neg hany, if_neg hany, List.map_append]
    rfl

theorem ids_nodup_foldl
    (hid : ∀ a p, getId (setPerms a p) = getId a)
    (l : List α) : ∀ m : List α, (m.map getId).Nodup →
    ((List.foldl (mergeStep getId getPerms setPerms) m l).map getId).Nodup := by
  induction l with
  | nil => intro m hm; simpa using hm
  | cons x xs ih =>
    intro m hm
    simp only [List.foldl_cons]
    apply ih
    rw [ids_mergeStep getId getPerms setPerms hid]
    by_cases hany : (m.any fun e => getId e == getId x) = true
    · rw [if_pos hany]; exact hm
    · rw [if_neg hany]
      refine List.Nodup.append hm (List.nodup_singleton _) ?_
      intro a ha hax
      obtain ⟨e, hem, hge⟩ := List.mem_map.mp ha
      exact hany (List.any_eq_true.mpr
        ⟨e, hem, beq_iff_eq.mpr (hge.trans (List.mem_singleton.mp hax))⟩)

theorem ids_nodup_mergeAll
    (hid : ∀ a p, getId (setPerms a p) = getId a)
    (l : List α) : ((mergeAll getId getPerms setPerms l).map getId).Nodup :=
  ids_nodup_foldl getId getPerms setPerms hid l [] (by simp)

theorem fields_foldl (rest : α → β)
    (hid : ∀ a p, getId (setPerms a p) = getId a)
    (hrest : ∀ a p, rest (setPerms a p) = rest a)
    (l : List α) : ∀ (m : List α) (i : String),
    ((List.foldl (mergeStep getId getPerms setPerms) m l).find?
        (fun e => getId e == i)).map rest =
      ((m.find? (fun e => getId e == i)).or
        (l.find? (fun e => getId e == i))).map rest := by
  induction l with
  | nil =>
    intro m i
    simp
  | cons x xs ih =>
    intro m i
    simp only [List.foldl_cons]
    rw [ih, find?_mergeStep getId getPerms setPerms hid]
    cases hfind : m.find? (fun e => getId e == i) with
    | some e =>
      dsimp only
      by_cases h : (getId e == getId x) = true
      · rw [if_pos h]
        simp only [someOr, Option.map_some']
        rw [hrest]
      · rw [if_neg h]
        simp only [someOr]
    | none =>
      dsimp only
      by_cases hcond : getId x = i ∧ ¬ (m.any (fun e => getId e == getId x) = true)
      · rw [if_pos hcond]
        have hb : (getId x == i) = true := beq_iff_eq.mpr hcond.1
        simp [List.find?_cons, hb, someOr, Option.none_or]
      · rw [if_neg hcond]
        simp only [Option.none_or]
        by_cases hxi : getId x = i
        · exfalso
          have hany : (m.any fun e => getId e == getId x) = true := by
            by_contra hn
            exact hcond ⟨hxi, hn⟩
          obtain ⟨e, hem, her⟩ := List.any_eq_true.mp hany
          exact List.find?_eq_none.mp hfind e hem
            (beq_iff_eq.mpr ((beq_iff_eq.mp her).trans hxi))
        · have hb : (getId x == i) = false := by simp [hxi]
          simp [List.find?_cons, hb]

theorem fields_mergeAll (rest : α → β)
    (hid : ∀ a p, getId (setPerms a p) = getId a)
    (hrest : ∀ a p, rest (setPerms a p) = rest a)
    (l : List α) (i : String) :
    ((mergeAll getId getPerms setPerms l).find? (fun e => getId e == i)).map rest =
      (l.find? (fun e => getId e == i)).map rest := by
  unfold mergeAll
  rw [fields_foldl getId getPerms setPerms rest hid hrest]
  simp

end MergeLemmas

/-! ## Concrete fixtures used by the witnesses and counterexamples -/

/-- A well-formed configuration. -/
def cfgDemo : FgaConfig :=
  { store_id := "store1", authorization_model_id := some "model1" }

/-- The path parameters of the worked example of the spec. -/
def paramsDemo : ResourceParams :=
  { service_name := "svcA", service_type := "typeB", org_id := "org1", name := "res1" }

/-- An authority that allows every check. -/
def tAllow : CheckTransport := fun _ => .ok { allowed := true }

/-- An authority that denies every check. -/
def tDeny : CheckTransport := fun _ => .ok { allowed := false }

/-- An authority whose failure message echoes the relation and object it
was asked about, making the submitted tuple observable in the handler
outcome. -/
def tCapCheck : CheckTransport := fun req =>
  .error (match req.tuple_key with
    | some k => k.relation ++ " " ++ k.object
    | none => "missing")

/-- A list authority that echoes back the user field it was sent. -/
def tEchoUser : ListTransport := fun req => .ok { objects := [req.user] }

/-- A list authority that echoes back the store and model ids it was sent. -/
def tEchoConfig : ListTransport := fun req =>
  .ok { objects := ["store=" ++ req.store_id, "model=" ++ req.authorization_model_id] }

/-- A list authority that is completely unreachable. -/
def tFailAll : ListTransport := fun _ => .error "transport error: Connection refused"

/-- A list authority failing exactly one of the nine fan-out queries. -/
def tFailOne : ListTransport := fun req =>
  if req.type == "service" && req.relation == "viewer" then .error "boom"
  else .ok { objects := ["service:s1"] }

/-- The same authority as `tFailOne` with the failing query replaced by an
empty success. -/
def tEmptyOne : ListTransport := fun req =>
  if req.type == "service" && req.relation == "viewer" then .ok { objects := [] }
  else .ok { objects := ["service:s1"] }

/-- A list authority returning one well-formed and one malformed
`service_type:` identifier. -/
def tSegMix : ListTransport := fun req =>
  if req.type == "service_type" then
    .ok { objects := ["service_type:svc/tA", "service_type:svc/typeA/extra"] }
  else .ok { objects := [] }

/-- A discovery record granting `viewer` on `service:s1`. -/
def svcRecViewer : SharedService :=
  { id := "service:s1", name := "s1", shared_via := "parent_organization",
    permissions := ["viewer"] }

/-- A discovery record granting `editor` on `service:s1`. -/
def svcRecEditor : SharedService :=
  { id := "service:s1", name := "s1", shared_via := "parent_organization",
    permissions := ["editor"] }

/-! ## Claim theorems -/

/-- C1: the spec table maps create to `admin` on `organisation:<org_id>` and
update/read/delete to `editor`/`viewer`/`owner` on
`resource:<service>/<type>/<org>/<name>` with the `resource:` type marker.
Evaluating the handlers at the failing input `svcA/typeB/org1/res1` with an
authority that echoes the submitted tuple shows the code checks the right
relations, but sends the object key `svcA/typeB/org1/res1` WITHOUT the
`resource:` marker for update, read and delete. -/
theorem crud_check_args_at_failing_input :
    create_resource cfgDemo tCapCheck paramsDemo "alice" =
      .error (500, [("error", "Failed to check permission"),
        ("message", "OpenFGA permission check failed: admin organisation:org1")]) ∧
    update_resource cfgDemo tCapCheck paramsDemo "alice" =
      .error (500, [("error", "Failed to check permission"),
        ("message", "OpenFGA permission check failed: editor svcA/typeB/org1/res1")]) ∧
    get_resource cfgDemo tCapCheck paramsDemo "alice" =
      .error (500, [("error", "Failed to check permission"),
        ("message", "OpenFGA permission check failed: viewer svcA/typeB/org1/res1")]) ∧
    delete_resource cfgDemo tCapCheck paramsDemo "alice" =
      .error (500, [("error", "Failed to check permission"),
        ("message", "OpenFGA permission check failed: owner svcA/typeB/org1/res1")]) ∧
    resourceKey paramsDemo ≠ "resource:svcA/typeB/org1/res1" :=
  ⟨rfl, rfl, rfl, rfl, by decide⟩

/-- C2: with a non-empty store id and a present model id, `check_permission`
submits to the authority exactly the request carrying the tuple
`(user = "user:" ++ principal, relation, object)` together with the
configured store and model ids, and returns the authority's `allowed`
boolean verbatim (the result is the transport's answer at that one
request, with no caching, bypass or fail-open). -/
theorem check_permission_exact_tuple_verbatim (cfg : FgaConfig)
    (t : CheckTransport) (m p r o : String) (_hp : p ≠ "")
    (hs : cfg.store_id ≠ "") (hm : cfg.authorization_model_id = some m) :
    check_permission cfg t p r o =
      (match t (checkRequestOf cfg m p r o) with
       | .ok response => .ok response.allowed
       | .error e => .error (classifyCheckErr e)) ∧
    (checkRequestOf cfg m p r o).tuple_key =
      some { user := "user:" ++ p, relation := r, object := o } ∧
    (checkRequestOf cfg m p r o).store_id = cfg.store_id ∧
    (checkRequestOf cfg m p r o).authorization_model_id = m := by
  refine ⟨?_, rfl, rfl, rfl⟩
  simp [check_permission, checkRequestOf, if_neg hs, hm]

/-- Witness for C2 at `principal = "alice"` with an allowing authority. -/
theorem check_permission_exact_tuple_verbatim_witness :
    ("alice" : String) ≠ "" ∧ cfgDemo.store_id ≠ "" ∧
    cfgDemo.authorization_model_id = some "model1" ∧
    check_permission cfgDemo tAllow "alice" "viewer" "doc:readme" = .ok true := by
  refine ⟨by decide, by decide, rfl, ?_⟩
  rw [(check_permission_exact_tuple_verbatim cfgDemo tAllow "model1" "alice" "viewer"
    "doc:readme" (by decide) (by decide) rfl).1]
  rfl

/-- C3 counterexample: `list_objects` performs no configuration validation.
With an empty store id and an absent model id it still invokes the
transport — the echoed body shows the request was sent with the empty
store id and the defaulted empty model id — and answers 200 rather than a
configuration error. -/
theorem list_objects_no_config_validation :
    list_objects { store_id := "", authorization_model_id := none } tEchoConfig
      { relation := none, object_type := none } "alice" =
      .ok (200, { objects := ["store=", "model="], total_count := 2,
                  object_type := "resource", relation := "viewer" }) := rfl

/-- C3 amended: only `check_permission` fails fast on missing configuration
(empty store id, then absent model id), without invoking the transport —
its result is the same constant for every transport; `list_objects` always
invokes the transport, copying the store id unvalidated and defaulting an
absent model id to the empty string. -/
theorem config_fail_fast_check_only (cfg : FgaConfig) (tc : CheckTransport)
    (tl : ListTransport) (p r o : String) (params : ListQueryParams) (u : String) :
    (cfg.store_id = "" →
      check_permission cfg tc p r o = .error "OpenFGA store ID not configured") ∧
    (cfg.store_id ≠ "" → cfg.authorization_model_id = none →
      check_permission cfg tc p r o =
        .error "OpenFGA authorization model ID not configured") ∧
    (list_objects cfg tl params u =
      match tl (mkListRequest cfg (params.object_type.getD "resource")
          (params.relation.getD "viewer") u) with
      | .ok response =>
        .ok (200, { objects := response.objects,
                    total_count := response.objects.length,
                    object_type := params.object_type.getD "resource",
                    relation := params.relation.getD "viewer" })
      | .error e => .error (500, [("error", "Failed to list objects"), ("message", e)])) := by
  refine ⟨?_, ?_, rfl⟩
  · intro h
    simp [check_permission, h]
  · intro hs hm
    simp [check_permission, if_neg hs, hm]

/-- Witness for C3 as amended, at an empty store id. -/
theorem config_fail_fast_check_only_witness :
    check_permission { store_id := "", authorization_model_id := none } tAllow
      "alice" "viewer" "doc:readme" = .error "OpenFGA store ID not configured" :=
  (config_fail_fast_check_only { store_id := "", authorization_model_id := none }
    tAllow tEchoConfig "alice" "viewer" "doc:readme"
    { relation := none, object_type := none } "alice").1 rfl

/-- C5 counterexample: the single-query list path sends the raw principal:
with an authority that echoes the user field back, `list_objects` for
principal `"alice"` returns `["alice"]`, and `"alice"` is not the
normalized form `"user:alice"`. -/
theorem list_objects_sends_raw_principal :
    list_objects cfgDemo tEchoUser { relation := none, object_type := none } "alice" =
      .ok (200, { objects := ["alice"], total_count := 1,
                  object_type := "resource", relation := "viewer" }) ∧
    ("alice" : String) ≠ "user:alice" :=
  ⟨rfl, by decide⟩

/-- C5 amended: only the single-check path normalizes the principal to
`user:<id>` before querying the authority; the single-query list request
and every discovery fan-out request carry the raw principal unprefixed. -/
theorem principal_normalized_only_for_check (cfg : FgaConfig)
    (tc : CheckTransport) (m p r o ot rel u : String)
    (hs : cfg.store_id ≠ "") (hm : cfg.authorization_model_id = some m) :
    (check_permission cfg tc p r o =
      match tc (checkRequestOf cfg m p r o) with
      | .ok response => .ok response.allowed
      | .error e => .error (classifyCheckErr e)) ∧
    (checkRequestOf cfg m p r o).tuple_key =
      some { user := "user:" ++ p, relation := r, object := o } ∧
    (mkListRequest cfg ot rel u).user = u := by
  refine ⟨?_, rfl, rfl⟩
  simp [check_permission, checkRequestOf, if_neg hs, hm]

/-- Witness for C5 as amended, at concrete inputs. -/
theorem principal_normalized_only_for_check_witness :
    (checkRequestOf cfgDemo "model1" "alice" "viewer" "doc:readme").tuple_key =
      some { user := "user:" ++ "alice", relation := "viewer", object := "doc:readme" } ∧
    (mkListRequest cfgDemo "resource" "viewer" "alice").user = "alice" :=
  ⟨(principal_normalized_only_for_check cfgDemo tAllow "model1" "alice" "viewer"
      "doc:readme" "resource" "viewer" "alice" (by decide) rfl).2.1,
   (principal_normalized_only_for_check cfgDemo tAllow "model1" "alice" "viewer"
      "doc:readme" "resource" "viewer" "alice" (by decide) rfl).2.2⟩

/-- C4 counterexample: when every one of the 9 fan-out queries fails (the
authority is unreachable), `get_shared_resources` still answers 200 with
empty collections — no hard error is ever surfaced to the caller. -/
theorem discovery_all_failures_still_success :
    get_shared_resources cfgDemo tFailAll "alice" =
      .ok (200, { services := [], service_types := [], resources := [] }) := rfl

/-- C4 amended: failed fan-out queries are non-fatal and behave exactly as
if they had returned an empty object list — replacing any set of failing
queries by empty successes leaves the discovery result unchanged — and the
request returns success for every transport, including one for which all 9
queries fail. -/
theorem discovery_failures_nonfatal (cfg : FgaConfig) (u : String)
    (t1 t2 : ListTransport)
    (h : ∀ req, t1 req = t2 req ∨
      (t2 req = .ok { objects := [] } ∧ ∃ e, t1 req = .error e)) :
    get_shared_resources cfg t1 u = get_shared_resources cfg t2 u ∧
    ∃ body, get_shared_resources cfg t1 u = .ok (200, body) := by
  have hl : ∀ ot rel, listFor cfg t1 u ot rel = listFor cfg t2 u ot rel := by
    intro ot rel
    rcases h (mkListRequest cfg ot rel u) with heq | ⟨h2, e, h1⟩
    · unfold listFor
      rw [heq]
    · unfold listFor
      rw [h1, h2]
  constructor
  · unfold get_shared_resources
    simp only [hl]
  · exact ⟨_, rfl⟩

/-- Witness for C4 as amended: one of the 9 queries fails and is equivalent
to that query returning nothing. -/
theorem discovery_failures_nonfatal_witness :
    get_shared_resources cfgDemo tFailOne "alice" =
      get_shared_resources cfgDemo tEmptyOne "alice" ∧
    ∃ body, get_shared_resources cfgDemo tFailOne "alice" = .ok (200, body) := by
  apply discovery_failures_nonfatal
  intro req
  by_cases hc : (req.type == "service" && req.relation == "viewer") = true
  · right
    refine ⟨?_, "boom", ?_⟩ <;> simp [tEmptyOne, tFailOne, hc]
  · left
    simp [tFailOne, tEmptyOne, hc]

/-- Specification of the deduplicating merge for one collection: the
id-to-permission-set mapping is invariant under permutation of the input
records, merged permission lists carry no duplicates, there is one record
per identifier, and the non-permission fields come from the first
occurrence of each identifier. -/
theorem merge_spec_generic {α β : Type} (getId : α → String)
    (getPerms : α → List String) (setPerms : α → List String → α) (rest : α → β)
    (hid : ∀ a p, getId (setPerms a p) = getId a)
    (hperm : ∀ a p, getPerms (setPerms a p) = p)
    (hrest : ∀ a p, rest (setPerms a p) = rest a)
    (l1 l2 : List α) (hp : l1.Perm l2)
    (h1 : ∀ r ∈ l1, ∃ rel, getPerms r = [rel]) :
    (∀ i s : String,
      s ∈ permsOf getId getPerms (mergeAll getId getPerms setPerms l1) i ↔
      s ∈ permsOf getId getPerms (mergeAll getId getPerms setPerms l2) i) ∧
    (∀ e ∈ mergeAll getId getPerms setPerms l1, (getPerms e).Nodup) ∧
    ((mergeAll getId getPerms setPerms l1).map getId).Nodup ∧
    (∀ i : String,
      ((mergeAll getId getPerms setPerms l1).find? (fun e => getId e == i)).map rest =
      (l1.find? (fun e => getId e == i)).map rest) := by
  refine ⟨?_, ?_, ids_nodup_mergeAll getId getPerms setPerms hid l1,
    fun i => fields_mergeAll getId getPerms setPerms rest hid hrest l1 i⟩
  · intro i s
    rw [mem_permsOf_mergeAll getId getPerms setPerms hid hperm l1 i s,
        mem_permsOf_mergeAll getId getPerms setPerms hid hperm l2 i s]
    constructor
    · rintro ⟨r, hrm, hri, hsp2⟩
      exact ⟨r, hp.mem_iff.mp hrm, hri, hsp2⟩
    · rintro ⟨r, hrm, hri, hsp2⟩
      exact ⟨r, hp.mem_iff.mpr hrm, hri, hsp2⟩
  · intro e he
    refine nodup_perms_mergeAll getId getPerms setPerms hperm l1 ?_ e he
    intro r hrm
    obtain ⟨rel, hrel⟩ := h1 r hrm
    rw [hrel]
    exact List.nodup_singleton rel

/-- Permissions recorded for an identifier in a merged service collection. -/
def servicePermsOf (m : List SharedService) (i : String) : List String :=
  permsOf (fun e => e.id) (fun e => e.permissions) m i

/-- Permissions recorded for an identifier in a merged service-type collection. -/
def serviceTypePermsOf (m : List SharedServiceType) (i : String) : List String :=
  permsOf (fun e => e.id) (fun e => e.permissions) m i

/-- Permissions recorded for an identifier in a merged resource collection. -/
def resourcePermsOf (m : List SharedResource) (i : String) : List String :=
  permsOf (fun e => e.id) (fun e => e.permissions) m i

/-- C6: for each of the three discovery collections the merge is
commutative and deduplicating: for any permutation of the per-(type,
relation) fan-out records (each tagged with the single relation just
queried), the merged identifier-to-permission-set mapping is unchanged;
merged permission lists have no duplicates; each identifier occurs in one
record; and all non-permission fields come from the identifier's first
occurrence. -/
theorem discovery_merge_commutative
    (ls1 ls2 : List SharedService) (lt1 lt2 : List SharedServiceType)
    (lr1 lr2 : List SharedResource)
    (hsp : ls1.Perm ls2) (htp : lt1.Perm lt2) (hrp : lr1.Perm lr2)
    (hs1 : ∀ r ∈ ls1, ∃ rel, r.permissions = [rel])
    (ht1 : ∀ r ∈ lt1, ∃ rel, r.permissions = [rel])
    (hr1 : ∀ r ∈ lr1, ∃ rel, r.permissions = [rel]) :
    ((∀ i s : String, s ∈ servicePermsOf (mergeServices ls1) i ↔
        s ∈ servicePermsOf (mergeServices ls2) i) ∧
      (∀ e ∈ mergeServices ls1, e.permissions.Nodup) ∧
      ((mergeServices ls1).map (fun e => e.id)).Nodup ∧
      (∀ i : String, ((mergeServices ls1).find? (fun e => e.id == i)).map
          (fun e => (e.name, e.shared_via)) =
        (ls1.find? (fun e => e.id == i)).map (fun e => (e.name, e.shared_via)))) ∧
    ((∀ i s : String, s ∈ serviceTypePermsOf (mergeServiceTypes lt1) i ↔
        s ∈ serviceTypePermsOf (mergeServiceTypes lt2) i) ∧
      (∀ e ∈ mergeServiceTypes lt1, e.permissions.Nodup) ∧
      ((mergeServiceTypes lt1).map (fun e => e.id)).Nodup ∧
      (∀ i : String, ((mergeServiceTypes lt1).find? (fun e => e.id == i)).map
          (fun e => (e.service_name, e.service_type, e.shared_via)) =
        (lt1.find? (fun e => e.id == i)).map
          (fun e => (e.service_name, e.service_type, e.shared_via)))) ∧
    ((∀ i s : String, s ∈ resourcePermsOf (mergeResources lr1) i ↔
        s ∈ resourcePermsOf (mergeResources lr2) i) ∧
      (∀ e ∈ mergeResources lr1, e.permissions.Nodup) ∧
      ((mergeResources lr1).map (fun e => e.id)).Nodup ∧
      (∀ i : String, ((mergeResources lr1).find? (fun e => e.id == i)).map
          (fun e => (e.service_name, e.service_type, e.resource_name, e.shared_via)) =
        (lr1.find? (fun e => e.id == i)).map
          (fun e => (e.service_name, e.service_type, e.resource_name, e.shared_via)))) := by
  refine ⟨?_, ?_, ?_⟩
  · exact merge_spec_generic (fun e => e.id) (fun e => e.permissions)
      (fun e p => { e with permissions := p }) (fun e => (e.name, e.shared_via))
      (fun _ _ => rfl) (fun _ _ => rfl) (fun _ _ => rfl) ls1 ls2 hsp hs1
  · exact merge_spec_generic (fun e => e.id) (fun e => e.permissions)
      (fun e p => { e with permissions := p })
      (fun e => (e.service_name, e.service_type, e.shared_via))
      (fun _ _ => rfl) (fun _ _ => rfl) (fun _ _ => rfl) lt1 lt2 htp ht1
  · exact merge_spec_generic (fun e => e.id) (fun e => e.permissions)
      (fun e p => { e with permissions := p })
      (fun e => (e.service_name, e.service_type, e.resource_name, e.shared_via))
      (fun _ _ => rfl) (fun _ _ => rfl) (fun _ _ => rfl) lr1 lr2 hrp hr1

/-- Witness for C6 at two single-relation records for the same service id
in both orders. -/
theorem discovery_merge_commutative_witness :
    ([svcRecViewer, svcRecEditor] : List SharedService).Perm
      [svcRecEditor, svcRecViewer] ∧
    ("viewer" ∈ servicePermsOf (mergeServices [svcRecViewer, svcRecEditor]) "service:s1" ↔
      "viewer" ∈ servicePermsOf (mergeServices [svcRecEditor, svcRecViewer]) "service:s1") ∧
    (∀ e ∈ mergeServices [svcRecViewer, svcRecEditor], e.permissions.Nodup) := by
  have hperm2 : ([svcRecViewer, svcRecEditor] : List SharedService).Perm
      [svcRecEditor, svcRecViewer] := List.Perm.swap svcRecEditor svcRecViewer []
  have h := discovery_merge_commutative [svcRecViewer, svcRecEditor]
    [svcRecEditor, svcRecViewer] [] [] [] [] hperm2 (List.Perm.refl [])
    (List.Perm.refl [])
    (by intro r hrm
        rcases List.mem_cons.mp hrm with h1 | h1
        · exact ⟨"viewer", by rw [h1]; rfl⟩
        · exact ⟨"editor", by rw [List.mem_singleton.mp h1]; rfl⟩)
    (by intro r hrm
        exact absurd hrm (List.not_mem_nil r))
    (by intro r hrm
        exact absurd hrm (List.not_mem_nil r))
  exact ⟨hperm2, h.1.1 "service:s1" "viewer", h.1.2.1⟩

/-- C7: a discovery identifier is parsed into the service-type collection
exactly when its `service_type:` path has two `/`-separated segments, and
into the resource collection exactly when its `resource:` path has three;
concretely, with an authority returning both `service_type:svc/tA` and the
three-segment `service_type:svc/typeA/extra`, the merged service-type
collection keeps only the former — the malformed identifier is silently
dropped. -/
theorem segment_mismatch_dropped :
    (∀ relation object_id : String, (parseServiceType relation object_id).isSome = true ↔
      ∃ path, stripPre "service_type:" object_id = some path ∧
        (splitChar '/' path).length = 2) ∧
    (∀ relation object_id : String, (parseResource relation object_id).isSome = true ↔
      ∃ path, stripPre "resource:" object_id = some path ∧
        (splitChar '/' path).length = 3) ∧
    get_shared_resources cfgDemo tSegMix "u" =
      .ok (200, ⟨[], [⟨"service_type:svc/tA", "svc", "tA", "parent_organization",
        ["admin", "editor", "viewer"]⟩], []⟩) := by
  refine ⟨?_, ?_, rfl⟩
  · intro relation object_id
    unfold parseServiceType
    cases hsp : stripPre "service_type:" object_id with
    | none => simp
    | some path =>
      dsimp only
      rcases hl : splitChar '/' path with _ | ⟨a, _ | ⟨b, _ | ⟨c, tail⟩⟩⟩
      · simp [hl]
      · simp [hl]
      · simp [hl]
      · simp [hl]
  · intro relation object_id
    unfold parseResource
    cases hsp : stripPre "resource:" object_id with
    | none => simp
    | some path =>
      dsimp only
      rcases hl : splitChar '/' path with _ | ⟨a, _ | ⟨b, _ | ⟨c, _ | ⟨d, tail⟩⟩⟩⟩
      · simp [hl]
      · simp [hl]
      · simp [hl]
      · simp [hl]
      · simp [hl]

/-- C8: each CRUD handler is the three-way case split on its permission
check: an allowed decision gives the success status (201 for create, 200
otherwise), a negative decision gives 403 with the permission-denied body,
and a checker error gives 500 with the check-failure body — so denial and
error are always distinguishable and success occurs only on an allowed
decision. -/
theorem crud_denied_vs_error_outcomes (cfg : FgaConfig) (t : CheckTransport)
    (params : ResourceParams) (u : String) :
    (create_resource cfg t params u =
      match check_permission cfg t u "admin" (orgKey params) with
      | .ok true => .ok (201, [("message", "Resource created successfully"),
          ("organisation", params.org_id)])
      | .ok false => .error (403, [("error", "Permission denied"),
          ("message", "You do not have permission to create this resource")])
      | .error e => .error (500, [("error", "Failed to check permission"),
          ("message", e)])) ∧
    (update_resource cfg t params u =
      match check_permission cfg t u "editor" (resourceKey params) with
      | .ok true => .ok (200, [("message", "Resource updated successfully"),
          ("resource_id", resourceKey params)])
      | .ok false => .error (403, [("error", "Permission denied"),
          ("message", "You do not have permission to update this resource")])
      | .error e => .error (500, [("error", "Failed to check permission"),
          ("message", e)])) ∧
    (get_resource cfg t params u =
      match check_permission cfg t u "viewer" (resourceKey params) with
      | .ok true => .ok (200, [("resource_id", resourceKey params),
          ("name", params.name), ("service_name", params.service_name),
          ("service_type", params.service_type), ("org_id", params.org_id)])
      | .ok false => .error (403, [("error", "Permission denied"),
          ("message", "You do not have permission to view this resource")])
      | .error e => .error (500, [("error", "Failed to check permission"),
          ("message", e)])) ∧
    (delete_resource cfg t params u =
      match check_permission cfg t u "owner" (resourceKey params) with
      | .ok true => .ok (200, [("message", "Resource deleted successfully"),
          ("resource_id", resourceKey params)])
      | .ok false => .error (403, [("error", "Permission denied"),
          ("message", "You do not have permission to delete this resource")])
      | .error e => .error (500, [("error", "Failed to check permission"),
          ("message", e)])) := by
  refine ⟨?_, ?_, ?_, ?_⟩
  · unfold create_resource
    cases check_permission cfg t u "admin" (orgKey params) with
    | ok allowed => cases allowed <;> rfl
    | error e => rfl
  · unfold update_resource
    cases check_permission cfg t u "editor" (resourceKey params) with
    | ok allowed => cases allowed <;> rfl
    | error e => rfl
  · unfold get_resource
    cases check_permission cfg t u "viewer" (resourceKey params) with
    | ok allowed => cases allowed <;> rfl
    | error e => rfl
  · unfold delete_resource
    cases check_permission cfg t u "owner" (resourceKey params) with
    | ok allowed => cases allowed <;> rfl
    | error e => rfl

/-- C9: `list_objects` defaults the relation to `viewer` and the object
type to `resource`, issues exactly one query (its outcome is the match on
the transport's answer at that single request), echoes the raw ordered
object list with its count and the used type/relation on success, and
reports any failure directly as a 500 error. -/
theorem list_objects_single_query_mode (cfg : FgaConfig) (t : ListTransport)
    (params : ListQueryParams) (u : String) :
    (list_objects cfg t params u =
      match t (mkListRequest cfg (params.object_type.getD "resource")
          (params.relation.getD "viewer") u) with
      | .ok response =>
        .ok (200, { objects := response.objects,
                    total_count := response.objects.length,
                    object_type := params.object_type.getD "resource",
                    relation := params.relation.getD "viewer" })
      | .error e => .error (500, [("error", "Failed to list objects"), ("message", e)])) ∧
    list_objects cfg t { relation := none, object_type := none } u =
      list_objects cfg t { relation := some "viewer", object_type := some "resource" } u :=
  ⟨rfl, rfl⟩

/-- C10: the authentication middleware answers 401 when the `X-User-Id`
header is missing, 400 when it is present but not valid UTF-8, 400 when
its decoded value is whitespace-only, and otherwise hands the handler an
`AuthUser` carrying exactly the (necessarily non-empty) header value. -/
theorem auth_middleware_rejects_bad_principals :
    (auth_middleware none = .error (401, [("error", "Missing authentication"),
      ("message", "X-User-Id header is required")])) ∧
    (auth_middleware (some (.error ())) = .error (400, [("error", "Invalid header format"),
      ("message", "X-User-Id header must be valid UTF-8")])) ∧
    (∀ s : String, (trimData s.data).isEmpty = true →
      auth_middleware (some (.ok s)) = .error (400, [("error", "Invalid user ID"),
        ("message", "X-User-Id header cannot be empty")])) ∧
    (∀ (s : String) (au : AuthUser), auth_middleware (some (.ok s)) = .ok au →
      au.user_id = s ∧ au.user_id ≠ "") := by
  refine ⟨rfl, rfl, ?_, ?_⟩
  · intro s h
    simp [auth_middleware, h]
  · intro s au h
    simp only [auth_middleware] at h
    by_cases he : (trimData s.data).isEmpty = true
    · rw [if_pos he] at h
      exact Except.noConfusion h
    · rw [if_neg he] at h
      have hau := Except.ok.inj h
      refine ⟨by rw [← hau], ?_⟩
      rw [← hau]
      intro hempty
      have hs : s = "" := hempty
      apply he
      rw [hs]
      rfl

/-- Witness for C10 at a whitespace-only and at a normal header value. -/
theorem auth_middleware_rejects_bad_principals_witness :
    (trimData (" " : String).data).isEmpty = true ∧
    auth_middleware (some (.ok " ")) = .error (400, [("error", "Invalid user ID"),
      ("message", "X-User-Id header cannot be empty")]) ∧
    auth_middleware (some (.ok "bob")) = .ok { user_id := "bob" } ∧
    ("bob" : String) ≠ "" := by
  refine ⟨rfl, ?_, rfl, ?_⟩
  · exact auth_middleware_rejects_bad_principals.2.2.1 " " rfl
  · exact (auth_middleware_rejects_bad_principals.2.2.2 "bob" { user_id := "bob" } rfl).2

end Fga
